import Mathlib

/-
Verification of the MistralMeter frontend against its specification.

The repository is a Nuxt (TypeScript/Vue) dashboard plus a FastAPI backend;
only the frontend sources are available here, so frontend computations are
embedded directly from the TypeScript, with JavaScript numbers modelled as
exact rationals and JSON parsing abstracted into function parameters.
Backend components that the spec describes but whose Python sources are not
available (the ComparisonEngine winner rule and the QualityJudge precondition
check) are modelled from the spec and marked as such in their doc comments.
-/

/- ------------------------------------------------------------------ -/
/- CostCalculator component (frontend/components, cost estimate card)  -/
/- ------------------------------------------------------------------ -/

/-- One entry of the static per-model price table: display name and
input/output prices per 1K tokens, in USD. -/
structure ModelPrice where
  name : String
  input : ℚ
  output : ℚ
deriving DecidableEq

/-- The static price table `modelPricing` from the CostCalculator component,
keyed by model id; absent ids yield `none` (JS `undefined`). -/
def modelPricing (m : String) : Option ModelPrice :=
  if m = "mistral-small-latest" then some ⟨"Mistral Small", 0.002, 0.006⟩
  else if m = "mistral-medium-latest" then some ⟨"Mistral Medium", 0.0027, 0.0081⟩
  else if m = "mistral-large-latest" then some ⟨"Mistral Large", 0.004, 0.012⟩
  else if m = "open-mistral-7b" then some ⟨"Open Mistral 7B", 0.00025, 0.00025⟩
  else if m = "open-mixtral-8x7b" then some ⟨"Open Mixtral 8x7B", 0.0007, 0.0007⟩
  else if m = "open-mixtral-8x22b" then some ⟨"Open Mixtral 8x22B", 0.002, 0.006⟩
  else none

/-- Removes leading and trailing whitespace characters, the effect of the
JavaScript `prompt.trim()` call. -/
def trimChars (cs : List Char) : List Char :=
  ((cs.dropWhile Char.isWhitespace).reverse.dropWhile Char.isWhitespace).reverse

/-- Counts the maximal runs of non-whitespace characters, the length of a
JavaScript `split(/\s+/)` of an already trimmed string. The flag records
whether we are currently inside a word. -/
def countWordsAux : List Char → Bool → ℕ
  | [], _ => 0
  | c :: cs, inWord =>
    if c.isWhitespace then countWordsAux cs false
    else (if inWord then 0 else 1) + countWordsAux cs true

/-- Word count of the prompt as the component computes it:
`prompt.trim().split(/\s+/).length`. A blank prompt gives 1 because in
JavaScript an empty string splits to a one-element array. -/
def wordCount (prompt : String) : ℕ :=
  let t := trimChars prompt.toList
  if t = [] then 1 else countWordsAux t false

/-- The `estimatedInputTokens` computed property of the CostCalculator:
`Math.ceil(words * 1.3)`, a client-side token estimate derived from the
prompt text alone. -/
def estimatedInputTokens (prompt : String) : ℕ :=
  Nat.ceil ((wordCount prompt : ℚ) * 1.3)

/-- The `inputCost` computed property, generalized over the input token
count that the component feeds into it: price-table lookup, 0 on a miss,
otherwise tokens / 1000 times the input price per 1K. -/
def inputCost (model : String) (inputTokens : ℚ) : ℚ :=
  match modelPricing model with
  | none => 0
  | some p => inputTokens / 1000 * p.input

/-- The `outputCost` computed property, generalized over the output token
count (the component passes `props.maxTokens`). -/
def outputCost (model : String) (outputTokens : ℚ) : ℚ :=
  match modelPricing model with
  | none => 0
  | some p => outputTokens / 1000 * p.output

/-- The `totalCost` computed property: input cost plus output cost. -/
def totalCost (model : String) (inputTokens outputTokens : ℚ) : ℚ :=
  inputCost model inputTokens + outputCost model outputTokens

/-- The total cost exactly as the component wires it up: input tokens are
the client-side estimate from the prompt text, output tokens are the
`maxTokens` parameter. -/
def componentTotalCost (prompt model : String) (maxTokens : ℚ) : ℚ :=
  totalCost model (estimatedInputTokens prompt) maxTokens

/-- The model name line of the pricing info block:
`modelPricing[model]?.name || 'Unknown model'`. -/
def displayedModelName (model : String) : String :=
  match modelPricing model with
  | some p => if p.name = "" then "Unknown model" else p.name
  | none => "Unknown model"

/-- The displayed input price: `modelPricing[model]?.input || 0`. A present
price of 0 and an absent model both display as 0, so `getD 0` is faithful. -/
def displayedInputPrice (model : String) : ℚ :=
  match modelPricing model with
  | some p => p.input
  | none => 0

/-- The displayed output price: `modelPricing[model]?.output || 0`. -/
def displayedOutputPrice (model : String) : ℚ :=
  match modelPricing model with
  | some p => p.output
  | none => 0

/-- Claim C1: for every model id present in the price table and every pair of
non-negative token counts, the estimated cost equals input tokens / 1000
times the input price per 1K plus output tokens / 1000 times the output
price per 1K. The witness instantiates the spec example
(mistral-small-latest, 1000 and 1000 tokens, cost 0.008). -/
theorem cost_formula (m : String) (p : ModelPrice) (hp : modelPricing m = some p)
    (it ot : ℚ) (hit : 0 ≤ it) (hot : 0 ≤ ot) :
    totalCost m it ot = it / 1000 * p.input + ot / 1000 * p.output := by
  simp [totalCost, inputCost, outputCost, hp]

/-- Claim C1 witness: model mistral-small-latest with 1000 input and 1000
output tokens costs exactly 0.008 USD. -/
theorem cost_formula_witness :
    totalCost "mistral-small-latest" 1000 1000 = 0.008 := by
  have h := cost_formula "mistral-small-latest" ⟨"Mistral Small", 0.002, 0.006⟩
    rfl 1000 1000 (by norm_num) (by norm_num)
  rw [h]
  norm_num

/-- Claim C5: for every model id not in the price table, the estimated cost
is exactly 0 (for both components and their total, never a hard failure:
the functions are total), the pricing block surfaces the warning text
Unknown model, and the displayed prices fall back to 0. -/
theorem unknown_model_cost (m : String) (hm : modelPricing m = none) (it ot : ℚ) :
    totalCost m it ot = 0 ∧ inputCost m it = 0 ∧ outputCost m ot = 0 ∧
    displayedModelName m = "Unknown model" ∧
    displayedInputPrice m = 0 ∧ displayedOutputPrice m = 0 := by
  simp [totalCost, inputCost, outputCost, displayedModelName,
    displayedInputPrice, displayedOutputPrice, hm]

/-- Claim C5 witness: the unknown model id gpt-4 has zero estimated cost and
shows the Unknown model warning. -/
theorem unknown_model_cost_witness :
    totalCost "gpt-4" 500 500 = 0 ∧ displayedModelName "gpt-4" = "Unknown model" := by
  have h := unknown_model_cost "gpt-4" (by decide) 500 500
  exact ⟨h.1, h.2.2.2.1⟩

/-- Claim C8 counterexample: the CostCalculator derives its input token count
from the prompt text alone (ceil of word count times 1.3), so two prompts
with different word counts produce different estimated costs with all other
inputs fixed, and no gateway accounting is involved at all. -/
theorem client_token_estimation_counterexample :
    estimatedInputTokens "hi" = 2 ∧
    estimatedInputTokens "one two three four" = 6 ∧
    componentTotalCost "hi" "mistral-small-latest" 100 ≠
      componentTotalCost "one two three four" "mistral-small-latest" 100 := by
  have e1 : estimatedInputTokens "hi" = 2 := by
    rw [estimatedInputTokens, show wordCount "hi" = 1 from by decide,
      Nat.ceil_eq_iff] <;> norm_num
  have e2 : estimatedInputTokens "one two three four" = 6 := by
    rw [estimatedInputTokens, show wordCount "one two three four" = 4 from by decide,
      Nat.ceil_eq_iff] <;> norm_num
  refine ⟨e1, e2, ?_⟩
  rw [componentTotalCost, componentTotalCost, e1, e2]
  have hp : modelPricing "mistral-small-latest" = some ⟨"Mistral Small", 0.002, 0.006⟩ := rfl
  simp only [totalCost, inputCost, outputCost, hp]
  norm_num

/-- Claim C8 amended: completed evaluations display the token counts returned
by the backend, but the pre-run cost estimate derives its input token count
client-side from the prompt text as ceil(wordCount times 1.3) and uses the
maxTokens parameter as the output count; for a priced model the displayed
cost is exactly that estimate run through the price formula. -/
theorem cost_uses_client_estimated_tokens (prompt model : String) (p : ModelPrice)
    (hp : modelPricing model = some p) (mt : ℚ) :
    componentTotalCost prompt model mt =
      (estimatedInputTokens prompt : ℚ) / 1000 * p.input + mt / 1000 * p.output := by
  simp [componentTotalCost, totalCost, inputCost, outputCost, hp]

/-- Claim C8 amended witness: prompt "hi" (1 word, estimated 2 input tokens)
on mistral-small-latest with maxTokens 100 is priced from the client-side
estimate, giving 0.000604 USD. -/
theorem cost_uses_client_estimated_tokens_witness :
    componentTotalCost "hi" "mistral-small-latest" 100 = 0.000604 := by
  have h := cost_uses_client_estimated_tokens "hi" "mistral-small-latest"
    ⟨"Mistral Small", 0.002, 0.006⟩ rfl 100
  rw [h, show estimatedInputTokens "hi" = 2 from by
    rw [estimatedInputTokens, show wordCount "hi" = 1 from by decide,
      Nat.ceil_eq_iff] <;> norm_num]
  norm_num

/- ------------------------------------------------------------------ -/
/- VarianceChart component (frontend/components/VarianceChart.vue)     -/
/- ------------------------------------------------------------------ -/

/-- The variance statistics record received by the VarianceChart component;
coefficient_of_variation is an optional field. -/
structure VarianceStats where
  mean : ℚ
  median : ℚ
  std_dev : ℚ
  min : ℚ
  max : ℚ
  p25 : ℚ
  p50 : ℚ
  p75 : ℚ
  p95 : ℚ
  coefficient_of_variation : Option ℚ
deriving DecidableEq

/-- The coefficient of variation the component actually uses:
`stats.coefficient_of_variation || (stats.std_dev / stats.mean)`. The
JavaScript or-operator treats both an absent field and the value 0 as falsy,
so either of those falls through to the division, with no guard on mean. -/
def cvUsed (s : VarianceStats) : ℚ :=
  match s.coefficient_of_variation with
  | some c => if c = 0 then s.std_dev / s.mean else c
  | none => s.std_dev / s.mean

/-- True exactly on the code path where the component computes
std_dev / mean itself (coefficient_of_variation absent or zero). -/
def fallbackDividesByMean (s : VarianceStats) : Bool :=
  match s.coefficient_of_variation with
  | some c => decide (c = 0)
  | none => true

/-- The run-to-run consistency classification from varianceQuality,
thresholding the coefficient of variation. -/
def varianceQuality (s : VarianceStats) : String :=
  if cvUsed s < 0.05 then "excellent"
  else if cvUsed s < 0.1 then "good"
  else if cvUsed s < 0.2 then "moderate"
  else "poor"

/-- A stats record with zero mean and no coefficient_of_variation field,
as produced for a degenerate sample; fields are mean, median, std_dev,
min, max, p25, p50, p75, p95, coefficient_of_variation. -/
def zeroMeanStats : VarianceStats := ⟨0, 0, 1, 0, 0, 0, 0, 0, 0, none⟩

/-- Claim C6 counterexample: on a stats record with mean 0 and no
coefficient_of_variation field, varianceQuality takes the fallback path and
computes std_dev / mean with a zero mean, so the division is not guarded by
mean being nonzero as the claim states. -/
theorem cv_zero_mean_counterexample :
    fallbackDividesByMean zeroMeanStats = true ∧ zeroMeanStats.mean = 0 ∧
    cvUsed zeroMeanStats = zeroMeanStats.std_dev / zeroMeanStats.mean :=
  ⟨rfl, rfl, rfl⟩

/-- Claim C6 amended: the consistency classifier uses the supplied
coefficient_of_variation when it is present and nonzero, and otherwise
computes std_dev / mean unconditionally — including when the mean is zero,
with no guard. -/
theorem cv_fallback_semantics (s : VarianceStats) :
    (∀ c, s.coefficient_of_variation = some c → c ≠ 0 → cvUsed s = c) ∧
    ((s.coefficient_of_variation = none ∨ s.coefficient_of_variation = some 0) →
      cvUsed s = s.std_dev / s.mean) := by
  constructor
  · intro c hc hne
    simp [cvUsed, hc, hne]
  · rintro (hc | hc) <;> simp [cvUsed, hc]

/-- Claim C6 amended witness: a record carrying coefficient_of_variation 1/2
uses it unchanged, and the zero-mean record falls back to the unguarded
division. -/
theorem cv_fallback_semantics_witness :
    cvUsed ⟨10, 10, 5, 5, 15, 8, 10, 12, 14, some (1/2)⟩ = 1/2 ∧
    cvUsed zeroMeanStats = zeroMeanStats.std_dev / zeroMeanStats.mean :=
  ⟨(cv_fallback_semantics _).1 (1/2) rfl (by norm_num),
   (cv_fallback_semantics zeroMeanStats).2 (Or.inl rfl)⟩

/- ------------------------------------------------------------------ -/
/- useLocalStorage composable (evaluation history)                     -/
/- ------------------------------------------------------------------ -/

/-- One locally stored evaluation history entry. -/
structure HistoryItem where
  id : String
  prompt : String
  model : String
  timestamp : String
  score : Option ℚ
  temperature : Option ℚ
deriving DecidableEq

/-- The MAX_HISTORY cap of the useLocalStorage composable. -/
def MAX_HISTORY : ℕ := 50

/-- The addToHistory operation: unshift the new item to the front, then keep
only the first MAX_HISTORY entries when the cap is exceeded. The id and
timestamp assignment of the source is already part of the supplied item. -/
def addToHistory (newItem : HistoryItem) (history : List HistoryItem) : List HistoryItem :=
  let h := newItem :: history
  if h.length > MAX_HISTORY then h.take MAX_HISTORY else h

/-- Claim C10: after addToHistory the stored history has at most 50 entries,
the new entry is at position 0, and the result is exactly the new entry
followed by the first 49 previous entries — so only entries beyond position
49 of the old list are discarded and the kept ones are unchanged. -/
theorem addToHistory_spec (i : HistoryItem) (h : List HistoryItem) :
    (addToHistory i h).length ≤ MAX_HISTORY ∧
    (addToHistory i h).head? = some i ∧
    addToHistory i h = i :: h.take (MAX_HISTORY - 1) := by
  unfold addToHistory MAX_HISTORY
  by_cases hl : (i :: h).length > 50
  · rw [if_pos hl]
    refine ⟨?_, ?_, ?_⟩
    · simp [List.length_take_le 50 (i :: h)]
    · rw [show (50 : ℕ) = 49 + 1 from rfl, List.take_succ_cons]
      rfl
    · rw [show (50 : ℕ) = 49 + 1 from rfl, List.take_succ_cons]
  · rw [if_neg hl]
    simp only [List.length_cons, gt_iff_lt, not_lt] at hl
    refine ⟨by simpa using hl, rfl, ?_⟩
    rw [List.take_of_length_le (by omega)]

/- ------------------------------------------------------------------ -/
/- Comparison: frontend page guard, ComparisonBar, and winner rule     -/
/- ------------------------------------------------------------------ -/

/-- A comparison request as the compare page posts it to the backend. -/
structure CompareRequest where
  prompt : String
  model_a : String
  model_b : String
  temperature : ℚ
  max_tokens : ℚ
deriving DecidableEq

/-- True when the prompt is blank: the JavaScript `!prompt.trim()` test. -/
def promptBlank (prompt : String) : Bool :=
  trimChars prompt.toList = []

/-- The runComparison handler of the compare page: it returns early — issuing
no comparison call and leaving the result unset — when the prompt is blank or
the two selected model ids are equal, and otherwise issues exactly the posted
request. -/
def runComparison (prompt modelA modelB : String) (temperature maxTokens : ℚ) :
    Option CompareRequest :=
  if promptBlank prompt || modelA == modelB then none
  else some ⟨prompt, modelA, modelB, temperature, maxTokens⟩

/-- The disabled condition of the Compare Models button:
`!prompt.trim() || loading || modelA === modelB`. -/
def compareDisabled (prompt : String) (loading : Bool) (modelA modelB : String) : Bool :=
  promptBlank prompt || loading || modelA == modelB

/-- The visibility condition of the warning line asking the operator to
select different models. -/
def sameModelWarning (modelA modelB : String) : Bool :=
  modelA == modelB

/-- Claim C3: whenever the two selected model ids are equal, the compare
button is disabled, an explanatory warning is shown, and runComparison
returns without issuing any comparison call, so no result — in particular no
silent tie — is ever produced for such a request. -/
theorem same_model_rejected (p a b : String) (t mt : ℚ) (l : Bool) (h : a = b) :
    runComparison p a b t mt = none ∧
    compareDisabled p l a b = true ∧
    sameModelWarning a b = true := by
  subst h
  simp [runComparison, compareDisabled, sameModelWarning]

/-- Claim C3 witness: comparing mistral-small-latest against itself is
rejected with no request issued, disabled button, and visible warning. -/
theorem same_model_rejected_witness :
    runComparison "Explain monads" "mistral-small-latest" "mistral-small-latest"
      0.7 1024 = none ∧
    compareDisabled "Explain monads" false "mistral-small-latest"
      "mistral-small-latest" = true ∧
    sameModelWarning "mistral-small-latest" "mistral-small-latest" = true :=
  same_model_rejected "Explain monads" "mistral-small-latest" "mistral-small-latest"
    0.7 1024 false rfl

/-- Outcome of a two-model comparison: optional winner id and a summary. -/
structure CompareOutcome where
  winner : Option String
  comparison_summary : String
deriving DecidableEq

/-- Modelled from the spec: the ComparisonEngine winner rule of the backend
(app/ of the repository, not available under src/ — only the Dockerfile that
copies it). The model with the strictly higher quality score wins; an exact
tie produces no winner and a summary stating the tie. -/
def determineWinner (modelA modelB : String) (scoreA scoreB : ℚ) : CompareOutcome :=
  if scoreA = scoreB then ⟨none, "Tie: both models scored equally"⟩
  else if scoreB < scoreA then ⟨some modelA, modelA ++ " wins on quality"⟩
  else ⟨some modelB, modelB ++ " wins on quality"⟩

/-- True when a summary string states a tie (begins with the word Tie). -/
def mentionsTie (s : String) : Bool :=
  "Tie".toList.isPrefixOf s.toList

/-- The isABetter computed property of ComparisonBar: with higherBetter set,
side A is marked better exactly when its value is strictly greater. -/
def isABetter (higherBetter : Option Bool) (valueA valueB : ℚ) : Bool :=
  match higherBetter with
  | none => false
  | some hb => if hb then decide (valueB < valueA) else decide (valueA < valueB)

/-- The isBBetter computed property of ComparisonBar, symmetric to
isABetter. -/
def isBBetter (higherBetter : Option Bool) (valueA valueB : ℚ) : Bool :=
  match higherBetter with
  | none => false
  | some hb => if hb then decide (valueA < valueB) else decide (valueB < valueA)

/-- Claim C2: the strictly higher quality score wins; an exact tie yields no
winner and a tie-stating summary; and the ComparisonBar quality row (rendered
with higherBetter true) marks a side better exactly on a strict inequality,
so neither side is marked on a tie. The winner computation itself is modelled
from the spec because the backend ComparisonEngine is not under src. -/
theorem comparison_winner_rule (ma mb : String) (a b : ℚ) :
    (a = b → (determineWinner ma mb a b).winner = none ∧
      mentionsTie (determineWinner ma mb a b).comparison_summary = true) ∧
    (a < b → (determineWinner ma mb a b).winner = some mb) ∧
    (b < a → (determineWinner ma mb a b).winner = some ma) ∧
    isABetter (some true) a b = decide (b < a) ∧
    isBBetter (some true) a b = decide (a < b) := by
  refine ⟨?_, ?_, ?_, rfl, rfl⟩
  · intro h
    subst h
    exact ⟨by simp [determineWinner], by simp [determineWinner]; decide⟩
  · intro h
    simp [determineWinner, ne_of_lt h, not_lt.mpr (le_of_lt h)]
  · intro h
    simp [determineWinner, (ne_of_lt h).symm, h]

/-- Claim C2 witness: scores 8.0 versus 8.0 give no winner, a tie-stating
summary, and no better marker on either bar side; scores 7.5 versus 8.2 give
model B as winner. -/
theorem comparison_winner_rule_witness :
    (determineWinner "mistral-small-latest" "mistral-large-latest" 8 8).winner = none ∧
    mentionsTie (determineWinner "mistral-small-latest" "mistral-large-latest" 8
      8).comparison_summary = true ∧
    (determineWinner "mistral-small-latest" "mistral-large-latest" 7.5 8.2).winner =
      some "mistral-large-latest" ∧
    isABetter (some true) 8 8 = false ∧
    isBBetter (some true) 8 8 = false := by
  have h88 := comparison_winner_rule "mistral-small-latest" "mistral-large-latest" 8 8
  have hlt := comparison_winner_rule "mistral-small-latest" "mistral-large-latest" 7.5 8.2
  refine ⟨(h88.1 rfl).1, (h88.1 rfl).2, hlt.2.1 (by norm_num), ?_, ?_⟩
  · rw [h88.2.2.2.1]
    simp
  · rw [h88.2.2.2.2]
    simp

/- ------------------------------------------------------------------ -/
/- QualityJudge precondition (backend component, modelled from spec)   -/
/- ------------------------------------------------------------------ -/

/-- A structured quality score as the judge returns it. -/
structure QualityScore where
  score : ℚ
  feedback : String
  criteria_scores : List (String × ℚ)
deriving DecidableEq

/-- The error taxonomy of a judge call. -/
inductive JudgeError where
  | configurationError : JudgeError
  | parseError : JudgeError
deriving DecidableEq

/-- Modelled from the spec: the backend QualityJudge (app/evaluator.py of the
repository, not available under src/). It must reject a request whose judge
model equals the evaluated model as a configuration error before making any
network call, and otherwise sends one rubric prompt through the gateway and
parses the structured reply. The second component counts the gateway calls
made; the gateway and the structured-output parsing are abstract
parameters. -/
def runQualityJudge (judgeModel evaluatedModel : String)
    (gateway : String → String) (parseJudge : String → Option QualityScore)
    (rubricPrompt : String) : Except JudgeError QualityScore × ℕ :=
  if judgeModel = evaluatedModel then (Except.error JudgeError.configurationError, 0)
  else
    match parseJudge (gateway rubricPrompt) with
    | some q => (Except.ok q, 1)
    | none => (Except.error JudgeError.parseError, 1)

/-- Claim C4: whenever the judge model id equals the evaluated model id the
judge call is rejected as a configuration error with zero gateway calls made,
so the request is never sent to the provider and never silently corrected
into a successful score. -/
theorem judge_config_rejected (j m : String) (gw : String → String)
    (pj : String → Option QualityScore) (rubric : String) (h : j = m) :
    runQualityJudge j m gw pj rubric =
      (Except.error JudgeError.configurationError, 0) := by
  simp [runQualityJudge, h]

/-- Claim C4 witness: judging mistral-small-latest with itself is rejected
with no gateway call, for an arbitrary concrete gateway and parser. -/
theorem judge_config_rejected_witness :
    runQualityJudge "mistral-small-latest" "mistral-small-latest"
      (fun _ => "") (fun _ => none) "rubric" =
      (Except.error JudgeError.configurationError, 0) :=
  judge_config_rejected "mistral-small-latest" "mistral-small-latest"
    (fun _ => "") (fun _ => none) "rubric" rfl

/- ------------------------------------------------------------------ -/
/- apiFetch error surfacing (frontend/composables/useApi.ts)           -/
/- ------------------------------------------------------------------ -/

/-- The part of an HTTP response that apiFetch inspects on failure. The
detail field is layered: none means the body was not JSON (response.json()
rejected), some none means JSON without a detail field, some (some d) means
a detail string d. -/
structure ApiResponse where
  ok : Bool
  status : ℕ
  detail : Option (Option String)
deriving DecidableEq

/-- The detail value after the catch fallback:
`await response.json().catch(() => ({ detail: "Unknown error" }))`. -/
def errorDetail (r : ApiResponse) : Option String :=
  match r.detail with
  | none => some "Unknown error"
  | some d => d

/-- The message of the thrown error:
`error.detail || "HTTP " + response.status` (an empty detail string is falsy
in JavaScript and also falls back to the status text). -/
def errorMessage (r : ApiResponse) : String :=
  match errorDetail r with
  | some d => if d = "" then "HTTP " ++ toString r.status else d
  | none => "HTTP " ++ toString r.status

/-- The error apiFetch throws: a plain Error carrying only a message string,
with no structured kind. -/
structure ApiClientError where
  message : String
deriving DecidableEq

/-- The apiFetch wrapper outcome on a settled response: the parsed body on
ok, otherwise a single generic error built from the message above. -/
def apiFetchResult (T : Type) (r : ApiResponse) (body : T) : Except ApiClientError T :=
  if r.ok then Except.ok body else Except.error ⟨errorMessage r⟩

/-- Claim C9 counterexample: a rate-limited failure (status 429) and an
invalid-model failure (status 400) whose bodies carry the same detail text
surface as identical generic errors, so the error kind is not distinguishable
from what apiFetch throws. -/
theorem api_error_kind_collapsed :
    apiFetchResult ℕ ⟨false, 429, some (some "Request rejected")⟩ 0 =
      apiFetchResult ℕ ⟨false, 400, some (some "Request rejected")⟩ 0 ∧
    (429 : ℕ) ≠ 400 := by
  refine ⟨?_, by decide⟩
  simp [apiFetchResult, errorMessage, errorDetail]

/-- Claim C9 amended: apiFetch surfaces every non-ok response as one generic
error type carrying only a message string — the body detail when it is a
nonempty string, the text Unknown error when the body is not JSON, and
HTTP status otherwise — rather than a distinguishable error kind per failure
mode. -/
theorem api_error_generic (T : Type) (r : ApiResponse) (body : T) (h : r.ok = false) :
    apiFetchResult T r body = Except.error ⟨errorMessage r⟩ ∧
    (∀ d, errorDetail r = some d → d ≠ "" → errorMessage r = d) ∧
    (r.detail = none → errorMessage r = "Unknown error") ∧
    ((errorDetail r = some "" ∨ errorDetail r = none) →
      errorMessage r = "HTTP " ++ toString r.status) := by
  refine ⟨by simp [apiFetchResult, h], ?_, ?_, ?_⟩
  · intro d hd hne
    simp [errorMessage, hd, hne]
  · intro hd
    simp [errorMessage, errorDetail, hd]
  · rintro (hd | hd) <;> simp [errorMessage, hd]

/-- Claim C9 amended witness: a 429 response with detail text surfaces as the
generic error with exactly that message. -/
theorem api_error_generic_witness :
    apiFetchResult ℕ ⟨false, 429, some (some "Rate limit exceeded")⟩ 0 =
      Except.error ⟨"Rate limit exceeded"⟩ := by
  have h := api_error_generic ℕ ⟨false, 429, some (some "Rate limit exceeded")⟩ 0 rfl
  rw [h.1, h.2.1 "Rate limit exceeded" rfl (by decide)]

/- ------------------------------------------------------------------ -/
/- streamEvaluate (frontend/composables/useApi.ts)                     -/
/- ------------------------------------------------------------------ -/

/-- What the streaming loop body does with one SSE line. -/
inductive StepResult where
  | stop : StepResult
  | yieldTok : String → StepResult
  | skip : StepResult
deriving DecidableEq

/-- The per-line behavior of the streamEvaluate generator: only lines with
the data prefix are considered; the payload is the line minus its 6-character
prefix (slice(6)); the payload DONE terminates the whole generator; otherwise
tokenOf abstracts JSON.parse followed by the truthiness test on parsed.token,
returning the token of a well-formed payload and none for a malformed one. -/
def handleLine (tokenOf : String → Option String) (line : String) : StepResult :=
  if line.startsWith "data: " then
    if line.drop 6 = "[DONE]" then StepResult.stop
    else
      match tokenOf (line.drop 6) with
      | some t => StepResult.yieldTok t
      | none => StepResult.skip
  else StepResult.skip

/-- Combines the action of one line with the outcome of the remaining lines
of the chunk: hitting the end-of-stream marker discards everything after it
and reports termination, a yielded token is prepended, a skipped line changes
nothing. -/
def applyStep (step : StepResult) (r : List String × Bool) : List String × Bool :=
  match step with
  | StepResult.stop => ([], true)
  | StepResult.yieldTok t => (t :: r.1, r.2)
  | StepResult.skip => r

/-- The inner for-loop of streamEvaluate over the lines of one decoded
chunk: collects yielded tokens in order and reports whether the end-of-stream
marker was hit, in which case the rest of the chunk is not processed. -/
def processLines (tokenOf : String → Option String) : List String → List String × Bool
  | [] => ([], false)
  | line :: rest => applyStep (handleLine tokenOf line) (processLines tokenOf rest)

/-- The streamEvaluate async generator over the successive network chunks
(each already decoded and split into lines): processes chunks in arrival
order and stops for good once a chunk hits the end-of-stream marker. -/
def streamEvaluate (tokenOf : String → Option String) : List (List String) → List String
  | [] => []
  | chunk :: rest =>
    if (processLines tokenOf chunk).2 then (processLines tokenOf chunk).1
    else (processLines tokenOf chunk).1 ++ streamEvaluate tokenOf rest

/-- True of the explicit end-of-stream marker line. -/
def isDoneLine (line : String) : Bool :=
  line.startsWith "data: " && decide (line.drop 6 = "[DONE]")

/-- The token payload a well-formed data line carries, none for every other
line. -/
def lineToken (tokenOf : String → Option String) (line : String) : Option String :=
  if line.startsWith "data: " ∧ line.drop 6 ≠ "[DONE]" then tokenOf (line.drop 6)
  else none

lemma swTakeWhileAll {α : Type} (p : α → Bool) (xs : List α)
    (h : ∀ a ∈ xs, p a = true) : xs.takeWhile p = xs := by
  induction xs with
  | nil => simp
  | cons a xs ih =>
    have pa := h a (List.mem_cons_self a xs)
    simp only [List.takeWhile_cons, pa, if_true]
    rw [ih (fun b hb => h b (List.mem_cons_of_mem a hb))]

lemma swTakeWhileAppendAll {α : Type} (p : α → Bool) (xs ys : List α)
    (h : ∀ a ∈ xs, p a = true) :
    (xs ++ ys).takeWhile p = xs ++ ys.takeWhile p := by
  induction xs with
  | nil => simp
  | cons a xs ih =>
    have pa := h a (List.mem_cons_self a xs)
    simp only [List.cons_append, List.takeWhile_cons, pa, if_true]
    rw [ih (fun b hb => h b (List.mem_cons_of_mem a hb))]

lemma swTakeWhileAppendStop {α : Type} (p : α → Bool) (xs ys : List α)
    (h : ∃ a ∈ xs, p a = false) :
    (xs ++ ys).takeWhile p = xs.takeWhile p := by
  induction xs with
  | nil =>
    obtain ⟨a, ha, _⟩ := h
    exact absurd ha (List.not_mem_nil a)
  | cons a xs ih =>
    by_cases pa : p a = true
    · simp only [List.cons_append, List.takeWhile_cons, pa, if_true]
      rw [ih]
      obtain ⟨x, hx, hpx⟩ := h
      rcases List.mem_cons.mp hx with hxa | hxs
      · rw [hxa] at hpx
        rw [hpx] at pa
        exact absurd pa (by simp)
      · exact ⟨x, hxs, hpx⟩
    · have pa0 : p a = false := by
        cases hpa : p a
        · rfl
        · exact absurd hpa pa
      simp [List.takeWhile_cons, pa0]

lemma processLines_nil (tokenOf : String → Option String) :
    processLines tokenOf [] = ([], false) := rfl

lemma processLines_cons (tokenOf : String → Option String) (l : String)
    (rest : List String) :
    processLines tokenOf (l :: rest) =
      applyStep (handleLine tokenOf l) (processLines tokenOf rest) := rfl

lemma processLines_eq (tokenOf : String → Option String) (ls : List String) :
    processLines tokenOf ls =
      ((ls.takeWhile (fun l => !isDoneLine l)).filterMap (lineToken tokenOf),
        ls.any isDoneLine) := by
  induction ls with
  | nil => simp [processLines_nil]
  | cons l rest ih =>
    rw [processLines_cons, ih]
    by_cases hsw : l.startsWith "data: "
    · by_cases hd : l.drop 6 = "[DONE]"
      · have hdl : isDoneLine l = true := by simp [isDoneLine, hsw, hd]
        have hstep : handleLine tokenOf l = StepResult.stop := by
          simp [handleLine, hsw, hd]
        simp [hstep, applyStep, hdl]
      · have hdl : isDoneLine l = false := by simp [isDoneLine, hsw, hd]
        have hlt : lineToken tokenOf l = tokenOf (l.drop 6) := by
          simp [lineToken, hsw, hd]
        cases ht : tokenOf (l.drop 6) with
        | some t =>
          have hstep : handleLine tokenOf l = StepResult.yieldTok t := by
            simp [handleLine, hsw, hd, ht]
          simp [hstep, applyStep, hdl, hlt, ht, List.takeWhile_cons,
            List.filterMap_cons]
        | none =>
          have hstep : handleLine tokenOf l = StepResult.skip := by
            simp [handleLine, hsw, hd, ht]
          simp [hstep, applyStep, hdl, hlt, ht, List.takeWhile_cons,
            List.filterMap_cons]
    · have hdl : isDoneLine l = false := by simp [isDoneLine, hsw]
      have hstep : handleLine tokenOf l = StepResult.skip := by
        simp [handleLine, hsw]
      have hlt : lineToken tokenOf l = none := by simp [lineToken, hsw]
      simp [hstep, applyStep, hdl, hlt, List.takeWhile_cons,
        List.filterMap_cons]

/-- Claim C7: the streaming consumer yields exactly the token payloads of the
well-formed data lines, in arrival order, restricted to the lines strictly
before the first end-of-stream marker DONE; nothing is yielded at or after
the marker, and the sequence is finite by construction. -/
theorem streamEvaluate_yields_tokens (tokenOf : String → Option String)
    (chunks : List (List String)) :
    streamEvaluate tokenOf chunks =
      ((chunks.flatten.takeWhile (fun l => !isDoneLine l)).filterMap
        (lineToken tokenOf)) := by
  induction chunks with
  | nil => simp [streamEvaluate]
  | cons c rest ih =>
    simp only [streamEvaluate, processLines_eq, List.flatten_cons]
    by_cases hany : c.any isDoneLine = true
    · simp only [hany, if_true]
      rw [swTakeWhileAppendStop]
      obtain ⟨x, hx, hpx⟩ := List.any_eq_true.mp hany
      exact ⟨x, hx, by simp [hpx]⟩
    · have hany0 : c.any isDoneLine = false := by
        cases hc : c.any isDoneLine
        · rfl
        · exact absurd hc hany
      have hall : ∀ a ∈ c, (!isDoneLine a) = true := by
        intro a ha
        have : ¬ (isDoneLine a = true) := by
          intro hda
          exact hany (List.any_eq_true.mpr ⟨a, ha, hda⟩)
        simp only [Bool.not_eq_true] at this
        simp [this]
      simp only [hany0, if_false, Bool.false_eq_true]
      rw [swTakeWhileAppendAll _ _ _ hall, List.filterMap_append, ih,
        swTakeWhileAll _ _ hall]
